import Mathlib

/-!
Verification of the audio-reactive procedural-rendering core of this
repository (a React + Three.js music-visualizer page and a Phantom-inspired
landing page sharing the same shader core).

Shallow embedding conventions:
  * JavaScript numbers appearing in the event/feature-extraction code are
    modelled as exact rationals; the GLSL shader arithmetic is modelled over
    the reals.
  * A `Uint8Array` frequency snapshot is a `List ℕ` whose entries are the
    byte magnitudes.  A JavaScript out-of-bounds indexed read yields
    `undefined`, which poisons a numeric sum to `NaN`; a computation whose
    result is `NaN` is modelled as `Option.none`.
  * The host's frame scheduler (`requestAnimationFrame` and
    `cancelAnimationFrame`) is modelled as a list of pending callback ids;
    ids are handed out from 1 upward, as in the HTML specification, so the
    initial value `0` of a raw id variable can never name a real callback.
-/

namespace Audio

/-- Bass cutoff from part_000 line 186: `Math.max(4, Math.floor(len * 0.2))`.
The literal `0.2` is the exact rational 1/5 here; the floor of `len * 0.2`
computed in binary floating point agrees with the exact floor for every
snapshot length that fits in a JavaScript array. -/
def afeCutoff (n : ℕ) : ℕ := max 4 (Nat.floor ((n : ℚ) * 0.2))

/-- Mean of the first `cutoff` bins normalized by 255, from part_000
lines 187-188: `for (let i = 0; i < cutoff; i++) sum += data[i];
const avg = sum / cutoff / 255;`. -/
def afeMean (s : List ℕ) : ℚ :=
  (((s.take (afeCutoff s.length)).map (fun v : ℕ => (v : ℚ))).sum / (afeCutoff s.length)) / 255

/-- The audio feature extraction step of part_000 lines 183-189.  The JS
loop reads indices `0 ≤ i < cutoff` of the snapshot; when the snapshot has
at least `cutoff` entries this is exactly the normalized mean `afeMean`.
When it is shorter (in particular when it is empty), the reads past the end
yield `undefined` and the accumulated sum is `NaN`, modelled as `none`. -/
def afeUpdate (s : List ℕ) : Option ℚ :=
  if afeCutoff s.length ≤ s.length then some (afeMean s) else none

end Audio

namespace Pointer

/-- Two-component vector of exact rationals, standing for a
`THREE.Vector2` as used for the mouse target and the smoothed uniform. -/
structure Vec2 where
  x : ℚ
  y : ℚ
deriving DecidableEq, Repr

/-- `THREE.Vector2.lerp(v, alpha)`: componentwise
`this.x += (v.x - this.x) * alpha`, as invoked at part_000 line 177
(`uMouse.value.lerp(mouseRef.current, 0.08)`). -/
def lerp (c t : Vec2) (alpha : ℚ) : Vec2 :=
  ⟨c.x + (t.x - c.x) * alpha, c.y + (t.y - c.y) * alpha⟩

/-- The smoothed pointer after `k` frames of the per-frame lerp step
against a constant target `t`, starting from `c0`. -/
def stepK (c0 t : Vec2) (r : ℚ) : ℕ → Vec2
  | 0 => c0
  | Nat.succ k => lerp (stepK c0 t r k) t r

/-- Bounding client rectangle of the canvas, with rational fields. -/
structure Rect where
  left : ℚ
  top : ℚ
  width : ℚ
  height : ℚ

/-- The pointer handler of part_000 lines 136-141:
`x = (clientX - left) / width; y = (clientY - top) / height;
mouseRef.current.set(x * 2 - 1, -(y * 2 - 1))`.  Note that the source
applies no clamping of any kind. -/
def onPointer (clientX clientY : ℚ) (r : Rect) : Vec2 :=
  ⟨(clientX - r.left) / r.width * 2 - 1, -((clientY - r.top) / r.height * 2 - 1)⟩

end Pointer

namespace Loop

/-- Render-loop state of part_000: `pending` are the scheduled,
not-yet-fired, not-cancelled `requestAnimationFrame` callback ids,
`nextId` the next id the host will hand out, `rafId` the JS variable of
the same name, `ticks` a count of executed animate bodies. -/
structure State0 where
  pending : List ℕ
  nextId : ℕ
  rafId : ℕ
  ticks : ℕ
deriving DecidableEq, Repr

/-- Body of `animate` in part_000 lines 172-199: the first statement is
`rafId = requestAnimationFrame(animate)`, so the fresh id is both recorded
in `rafId` and added to the pending schedule, then the frame work runs. -/
def tick0 (s : State0) : State0 :=
  { pending := s.pending ++ [s.nextId], nextId := s.nextId + 1,
    rafId := s.nextId, ticks := s.ticks + 1 }

/-- The host fires a scheduled callback: only a pending id can fire, it is
removed from the schedule, and the animate body runs. -/
def fire0 (s : State0) (h : ℕ) : State0 :=
  if h ∈ s.pending then tick0 { s with pending := s.pending.erase h } else s

/-- Effect setup in part_000: a single direct `animate()` call at line 200. -/
def init0 : State0 := tick0 ⟨[], 1, 0, 0⟩

/-- Cleanup in part_000 lines 203-211: `cancelAnimationFrame(rafId)`
removes the stored pending id.  The final `container.removeChild` is
wrapped in `try { } catch (e) {}` so the cleanup never faults. -/
def teardown0 (s : State0) : State0 := { s with pending := s.pending.erase s.rafId }

/-- Render-loop state of part_001; that variant declares `let raf = 0` but
`animate` never assigns to it, so no `rafId` field is needed: the variable
is the constant 0. -/
structure State1 where
  pending : List ℕ
  nextId : ℕ
  ticks : ℕ
deriving DecidableEq, Repr

/-- Body of `animate` in part_001 lines 176-181:
`requestAnimationFrame(animate)` is called but its return value is
discarded (never stored in `raf`). -/
def tick1 (s : State1) : State1 :=
  { pending := s.pending ++ [s.nextId], nextId := s.nextId + 1, ticks := s.ticks + 1 }

/-- The host fires a scheduled part_001 callback. -/
def fire1 (s : State1) (h : ℕ) : State1 :=
  if h ∈ s.pending then tick1 { s with pending := s.pending.erase h } else s

/-- Effect setup in part_001: `animate()` is invoked twice, at lines 182
and 184, starting two concurrent scheduling chains. -/
def init1 : State1 := tick1 (tick1 ⟨[], 1, 0⟩)

/-- Cleanup in part_001 lines 187-196: `cancelAnimationFrame(raf)` with
`raf` still holding its initial value 0, which is not a valid callback id,
so nothing is removed from the schedule. -/
def teardown1 (s : State1) : State1 := { s with pending := s.pending.erase 0 }

end Loop

namespace AppM

/-- The pieces of part_000 component state that the volume control can
touch: the `volume` React state, the `audioElRef.current.volume` property
(absent while no audio element exists), the presence of the analyser, the
`isPlaying` flag, and a generation counter for the render effect, which is
incremented each time the effect body re-runs (its dependency list at
line 212 is `[volume]`, so a changed volume state tears the Three.js
session down and builds a new one). -/
structure State where
  volume : ℚ
  audioVol : Option ℚ
  analyserPresent : Bool
  isPlaying : Bool
  sessionGen : ℕ
deriving DecidableEq, Repr

/-- The `handleVolume` handler of part_000 lines 253-257 together with the
React re-render it triggers: `vol = Math.max(0, Math.min(1, v))`,
`setVolume(vol)` (a state update that is a no-op when the value is
unchanged, and otherwise re-runs the `[volume]`-dependent effect), and
`audioElRef.current.volume = vol` when the audio element exists. -/
def handleVolume (v : ℚ) (s : State) : State :=
  { volume := max 0 (min 1 v)
    audioVol := s.audioVol.map fun _ => max 0 (min 1 v)
    analyserPresent := s.analyserPresent
    isPlaying := s.isPlaying
    sessionGen := if max 0 (min 1 v) = s.volume then s.sessionGen else s.sessionGen + 1 }

end AppM

namespace Shader

/-- GLSL `clamp(x, lo, hi) = min(max(x, lo), hi)`. -/
noncomputable def clampG (x lo hi : ℝ) : ℝ := min (max x lo) hi

/-- GLSL `mix(x, y, a) = x * (1 - a) + y * a`. -/
noncomputable def mixG (x y a : ℝ) : ℝ := x * (1 - a) + y * a

/-- GLSL `fract(x) = x - floor(x)`. -/
noncomputable def fractG (x : ℝ) : ℝ := x - ⌊x⌋

/-- The Hermite cubic `t * t * (3 - 2 * t)`, the interpolation weight
`u = f * f * (3.0 - 2.0 * f)` of the value noise (part_000 line 15) and
the core of GLSL `smoothstep`. -/
noncomputable def scurve (t : ℝ) : ℝ := t * t * (3 - 2 * t)

/-- GLSL `smoothstep(e0, e1, x)`: clamp `(x - e0) / (e1 - e0)` to `[0,1]`
and apply the Hermite cubic. -/
noncomputable def smoothstepG (e0 e1 x : ℝ) : ℝ :=
  scurve (clampG ((x - e0) / (e1 - e0)) 0 1)

/-- Lattice hash of part_000 line 11:
`fract(sin(dot(p, vec2(127.1, 311.7))) * 43758.5453123)`
(identically repeated at part_001 lines 20-22). -/
noncomputable def hash (p : ℝ × ℝ) : ℝ :=
  fractG (Real.sin (p.1 * 127.1 + p.2 * 311.7) * 43758.5453123)

/-- Value noise of part_000 lines 12-17 (identical at part_001 lines
23-32): hash the four lattice corners around `p` and blend them with the
Hermite-cubic weights, written exactly as in the source:
`mix(a, b, u.x) + (c - a) * u.y * (1.0 - u.x) + (d - b) * u.x * u.y`. -/
noncomputable def noise (p : ℝ × ℝ) : ℝ :=
  mixG (hash ((⌊p.1⌋ : ℝ), (⌊p.2⌋ : ℝ))) (hash ((⌊p.1⌋ : ℝ) + 1, (⌊p.2⌋ : ℝ)))
      (scurve (fractG p.1))
    + (hash ((⌊p.1⌋ : ℝ), (⌊p.2⌋ : ℝ) + 1) - hash ((⌊p.1⌋ : ℝ), (⌊p.2⌋ : ℝ)))
      * scurve (fractG p.2) * (1 - scurve (fractG p.1))
    + (hash ((⌊p.1⌋ : ℝ) + 1, (⌊p.2⌋ : ℝ) + 1) - hash ((⌊p.1⌋ : ℝ) + 1, (⌊p.2⌋ : ℝ)))
      * scurve (fractG p.1) * scurve (fractG p.2)

/-- Height displacement of the part_000 vertex shader, lines 22-33, with
every `let` of the source inlined:
`t = uTime * 0.8`,
`warp = vec2(noise(uv * 3.0 + t), noise(uv * 3.0 - t)) * 0.3`,
`m = length(uv - (uMouse * 0.5 + 0.5))`,
`mouseRip = smoothstep(0.7, 0.0, m) * 0.5`,
`amp = 0.2 + uAudio * 0.9`,
`h = noise(uv * 6.0 + warp + t) * amp + mouseRip * (0.25 + uAudio * 0.5)`. -/
noncomputable def vertexHeight (uv : ℝ × ℝ) (time : ℝ) (mouse : ℝ × ℝ) (audio : ℝ) : ℝ :=
  noise (uv.1 * 6 + noise (uv.1 * 3 + time * 0.8, uv.2 * 3 + time * 0.8) * 0.3 + time * 0.8,
         uv.2 * 6 + noise (uv.1 * 3 - time * 0.8, uv.2 * 3 - time * 0.8) * 0.3 + time * 0.8)
      * (0.2 + audio * 0.9)
    + smoothstepG 0.7 0
        (Real.sqrt ((uv.1 - (mouse.1 * 0.5 + 0.5)) ^ 2 + (uv.2 - (mouse.2 * 0.5 + 0.5)) ^ 2))
      * 0.5 * (0.25 + audio * 0.5)

/-- Radial vignette of the part_000 fragment shader, line 50:
`smoothstep(1.0, 0.2, length(vUv - 0.5))`. -/
noncomputable def vign (vUv : ℝ × ℝ) : ℝ :=
  smoothstepG 1 0.2 (Real.sqrt ((vUv.1 - 0.5) ^ 2 + (vUv.2 - 0.5) ^ 2))

/-- Audio-driven pulse of the fragment shader, line 57:
`pulse = 0.2 + uAudio * 1.2`. -/
noncomputable def pulse (audio : ℝ) : ℝ := 0.2 + audio * 1.2

/-- Sinusoidal tint added to every channel, line 59:
`sin(t + vUv.x * 6.0) * 0.02 * pulse` with `t = uTime * 0.2`. -/
noncomputable def tint (vUv : ℝ × ℝ) (time audio : ℝ) : ℝ :=
  Real.sin (time * 0.2 + vUv.1 * 6) * 0.02 * pulse audio

/-- Glow factor of line 60: `pow(uAudio, 1.5) * 0.4`; each channel adds
this scaled by the corresponding component of `bright = (0.6, 0.4, 1.0)`. -/
noncomputable def glow (audio : ℝ) : ℝ := audio ^ (1.5 : ℝ) * 0.4

/-- RGB output of the part_000 fragment shader, lines 48-64:
`col = mix(deep, mid, vUv.y) + sin(t + vUv.x * 6.0) * 0.02 * pulse;
col += bright * pow(uAudio, 1.5) * 0.4; col *= vign;` with
`deep = (0.02, 0.03, 0.06)`, `mid = (0.18, 0.15, 0.4)`,
`bright = (0.6, 0.4, 1.0)`. -/
noncomputable def fragColor (vUv : ℝ × ℝ) (time audio : ℝ) : ℝ × ℝ × ℝ :=
  ((mixG 0.02 0.18 vUv.2 + tint vUv time audio + 0.6 * glow audio) * vign vUv,
   (mixG 0.03 0.15 vUv.2 + tint vUv time audio + 0.4 * glow audio) * vign vUv,
   (mixG 0.06 0.4 vUv.2 + tint vUv time audio + 1.0 * glow audio) * vign vUv)

end Shader

namespace Audio

/-- The cutoff never exceeds the snapshot length exactly when the snapshot
has at least four bins. -/
lemma afeCutoff_le_iff (n : ℕ) : afeCutoff n ≤ n ↔ 4 ≤ n := by
  constructor
  · intro h
    exact le_trans (le_max_left 4 _) h
  · intro h
    unfold afeCutoff
    refine max_le h ?_
    have hle : ((n : ℚ) * 0.2) ≤ (n : ℚ) := by
      have := Nat.cast_nonneg (α := ℚ) n
      nlinarith
    calc Nat.floor ((n : ℚ) * 0.2) ≤ Nat.floor ((n : ℚ)) := Nat.floor_le_floor hle
    _ = n := Nat.floor_natCast n

/-- The cutoff is at least four, hence never zero: the divisor of the
average cannot vanish. -/
lemma afeCutoff_pos (n : ℕ) : 0 < afeCutoff n :=
  lt_of_lt_of_le (by norm_num) (le_max_left 4 _)

/-- Sum of a constant list of rationals. -/
lemma qsum_const (l : List ℚ) (c : ℚ) (h : ∀ x ∈ l, x = c) :
    l.sum = l.length * c := by
  induction l with
  | nil => simp
  | cons a t ih =>
    have ha : a = c := h a (by simp)
    have ht : t.sum = t.length * c := ih fun x hx => h x (by simp [hx])
    simp only [List.sum_cons, List.length_cons, ha, ht]
    push_cast
    ring

end Audio

/-- C1: for every frequency snapshot of N byte magnitudes (each in
[0,255], and with the N at least the 4-bin minimum cutoff presupposed by
taking the first `cutoff` entries; the analyser of the source always
produces N = 256), `afeUpdate` returns the arithmetic mean of the first
`cutoff = max(4, floor(N * 0.2))` entries divided by 255; the result lies
in [0,1], an all-zero snapshot yields 0, and an all-255 snapshot yields 1. -/
theorem C1_audio_feature_extractor (s : List ℕ) (hlen : 4 ≤ s.length)
    (hmax : ∀ x ∈ s, x ≤ 255) :
    Audio.afeUpdate s = some (Audio.afeMean s) ∧
    0 ≤ Audio.afeMean s ∧ Audio.afeMean s ≤ 1 ∧
    ((∀ x ∈ s, x = 0) → Audio.afeMean s = 0) ∧
    ((∀ x ∈ s, x = 255) → Audio.afeMean s = 1) := by
  have hcut : Audio.afeCutoff s.length ≤ s.length := (Audio.afeCutoff_le_iff _).mpr hlen
  have hc0 : 0 < Audio.afeCutoff s.length := Audio.afeCutoff_pos _
  have hcq : (0 : ℚ) < (Audio.afeCutoff s.length : ℚ) := by exact_mod_cast hc0
  have htl : ((s.take (Audio.afeCutoff s.length)).map (fun v : ℕ => (v : ℚ))).length
      = Audio.afeCutoff s.length := by
    simp [List.length_take, min_eq_left hcut]
  have hnn : 0 ≤ ((s.take (Audio.afeCutoff s.length)).map (fun v : ℕ => (v : ℚ))).sum := by
    apply List.sum_nonneg
    intro x hx
    obtain ⟨v, _, rfl⟩ := List.mem_map.1 hx
    positivity
  have hub : ((s.take (Audio.afeCutoff s.length)).map (fun v : ℕ => (v : ℚ))).sum
      ≤ (Audio.afeCutoff s.length : ℚ) * 255 := by
    have h1 := List.sum_le_card_nsmul
      ((s.take (Audio.afeCutoff s.length)).map (fun v : ℕ => (v : ℚ))) (255 : ℚ) ?_
    · rwa [htl, nsmul_eq_mul] at h1
    · intro x hx
      obtain ⟨v, hv, rfl⟩ := List.mem_map.1 hx
      exact_mod_cast hmax v (List.take_subset _ _ hv)
  refine ⟨by simp [Audio.afeUpdate, if_pos hcut], ?_, ?_, ?_, ?_⟩
  · unfold Audio.afeMean
    positivity
  · unfold Audio.afeMean
    rw [div_div, div_le_one (by positivity)]
    linarith
  · intro h0
    unfold Audio.afeMean
    have : ((s.take (Audio.afeCutoff s.length)).map (fun v : ℕ => (v : ℚ))).sum = 0 := by
      rw [Audio.qsum_const _ 0]
      · ring
      · intro x hx
        obtain ⟨v, hv, rfl⟩ := List.mem_map.1 hx
        have := h0 v (List.take_subset _ _ hv)
        simp [this]
    rw [this]
    simp
  · intro h255
    unfold Audio.afeMean
    have : ((s.take (Audio.afeCutoff s.length)).map (fun v : ℕ => (v : ℚ))).sum
        = (Audio.afeCutoff s.length : ℚ) * 255 := by
      rw [Audio.qsum_const _ 255]
      · rw [htl]
      · intro x hx
        obtain ⟨v, hv, rfl⟩ := List.mem_map.1 hx
        have := h255 v (List.take_subset _ _ hv)
        simp [this]
    rw [this, div_div, div_self (by positivity)]

/-- C1 witness: a concrete all-255 snapshot of four bins is accepted and
reduced to exactly 1. -/
theorem C1_witness : Audio.afeUpdate [255, 255, 255, 255] = some 1 := by
  have h := C1_audio_feature_extractor [255, 255, 255, 255] (by norm_num) (by decide)
  rw [h.1, h.2.2.2.2 (by decide)]

/-- C2 counterexample: on the empty snapshot the extractor does not fail
with any error: the loop reads four out-of-bounds entries, the sum becomes
NaN (modelled `none`), and NaN is stored as the audio intensity, whereas
the claim requires an `InvalidInputError` and forbids returning NaN.  No
error type named `InvalidInputError` occurs anywhere in the source. -/
theorem C2_counterexample : Audio.afeUpdate [] = none := by
  have : ¬ Audio.afeCutoff (List.length ([] : List ℕ)) ≤ List.length ([] : List ℕ) := by
    intro h
    have := (Audio.afeCutoff_le_iff _).mp h
    simp at this
  unfold Audio.afeUpdate
  rw [if_neg this]

/-- C2 amended: on an empty snapshot the extractor raises nothing and
returns NaN (`none`): more generally NaN is produced precisely when the
snapshot has fewer than four bins, and a division fault is impossible
because the divisor `cutoff` is always at least 4. -/
theorem C2_amended :
    Audio.afeUpdate [] = none ∧
    (∀ s : List ℕ, Audio.afeUpdate s = none ↔ s.length < 4) ∧
    (∀ s : List ℕ, 0 < Audio.afeCutoff s.length) := by
  refine ⟨?_, ?_, fun s => Audio.afeCutoff_pos _⟩
  · have : ¬ Audio.afeCutoff (List.length ([] : List ℕ)) ≤ List.length ([] : List ℕ) := by
      intro h
      have := (Audio.afeCutoff_le_iff _).mp h
      simp at this
    unfold Audio.afeUpdate
    rw [if_neg this]
  · intro s
    unfold Audio.afeUpdate
    constructor
    · intro h
      by_contra hge
      push_neg at hge
      rw [if_pos ((Audio.afeCutoff_le_iff _).mpr hge)] at h
      exact Option.some_ne_none _ h
    · intro hlt
      rw [if_neg]
      intro hle
      exact absurd ((Audio.afeCutoff_le_iff _).mp hle) (by omega)

namespace Pointer

/-- Residual of the smoothed pointer against a constant target: one lerp
step scales the x-residual by `1 - r`. -/
lemma stepK_residual_x (p c0 : Vec2) (r : ℚ) (k : ℕ) :
    p.x - (stepK c0 p r k).x = (p.x - c0.x) * (1 - r) ^ k := by
  induction k with
  | zero => simp [stepK]
  | succ k ih =>
    simp only [stepK, lerp, pow_succ]
    linear_combination (1 - r) * ih

/-- Residual of the smoothed pointer against a constant target, in y. -/
lemma stepK_residual_y (p c0 : Vec2) (r : ℚ) (k : ℕ) :
    p.y - (stepK c0 p r k).y = (p.y - c0.y) * (1 - r) ^ k := by
  induction k with
  | zero => simp [stepK]
  | succ k ih =>
    simp only [stepK, lerp, pow_succ]
    linear_combination (1 - r) * ih

end Pointer

/-- C3: the smoother's frame step is `current = lerp(current, target, r)`;
for a fixed rate `r` in (0,1], a constant target `p` and an arbitrary
initial state `c0`, after `k` steps the componentwise distance to the
target is exactly `|p - c0| * (1 - r)^k` (exact over the rationals, hence
within any floating-point tolerance), and the current value never
overshoots: it stays on the initial side of the target in each component. -/
theorem C3_smoother_convergence (r : ℚ) (hr0 : 0 < r) (hr1 : r ≤ 1)
    (p c0 : Pointer.Vec2) (k : ℕ) :
    Pointer.stepK c0 p r (k + 1) = Pointer.lerp (Pointer.stepK c0 p r k) p r ∧
    |p.x - (Pointer.stepK c0 p r k).x| = |p.x - c0.x| * (1 - r) ^ k ∧
    |p.y - (Pointer.stepK c0 p r k).y| = |p.y - c0.y| * (1 - r) ^ k ∧
    0 ≤ (p.x - (Pointer.stepK c0 p r k).x) * (p.x - c0.x) ∧
    0 ≤ (p.y - (Pointer.stepK c0 p r k).y) * (p.y - c0.y) := by
  have hpow : (0 : ℚ) ≤ (1 - r) ^ k := pow_nonneg (by linarith) k
  refine ⟨rfl, ?_, ?_, ?_, ?_⟩
  · rw [Pointer.stepK_residual_x, abs_mul, abs_pow, abs_of_nonneg (by linarith : (0:ℚ) ≤ 1 - r)]
  · rw [Pointer.stepK_residual_y, abs_mul, abs_pow, abs_of_nonneg (by linarith : (0:ℚ) ≤ 1 - r)]
  · rw [Pointer.stepK_residual_x]
    nlinarith [sq_nonneg (p.x - c0.x)]
  · rw [Pointer.stepK_residual_y]
    nlinarith [sq_nonneg (p.y - c0.y)]

/-- C3 witness: the source rate 0.08 = 2/25 with target (1,-1), start
(0,0), two steps. -/
theorem C3_witness :
    Pointer.stepK (Pointer.Vec2.mk 0 0) (Pointer.Vec2.mk 1 (-1)) (2 / 25) (2 + 1)
        = Pointer.lerp (Pointer.stepK (Pointer.Vec2.mk 0 0) (Pointer.Vec2.mk 1 (-1)) (2 / 25) 2)
            (Pointer.Vec2.mk 1 (-1)) (2 / 25) ∧
    |(Pointer.Vec2.mk 1 (-1)).x - (Pointer.stepK (Pointer.Vec2.mk 0 0)
        (Pointer.Vec2.mk 1 (-1)) (2 / 25) 2).x|
      = |(Pointer.Vec2.mk 1 (-1)).x - (Pointer.Vec2.mk 0 0).x| * (1 - 2 / 25) ^ 2 ∧
    |(Pointer.Vec2.mk 1 (-1)).y - (Pointer.stepK (Pointer.Vec2.mk 0 0)
        (Pointer.Vec2.mk 1 (-1)) (2 / 25) 2).y|
      = |(Pointer.Vec2.mk 1 (-1)).y - (Pointer.Vec2.mk 0 0).y| * (1 - 2 / 25) ^ 2 ∧
    0 ≤ ((Pointer.Vec2.mk 1 (-1)).x - (Pointer.stepK (Pointer.Vec2.mk 0 0)
        (Pointer.Vec2.mk 1 (-1)) (2 / 25) 2).x) * ((Pointer.Vec2.mk 1 (-1)).x - (Pointer.Vec2.mk 0 0).x) ∧
    0 ≤ ((Pointer.Vec2.mk 1 (-1)).y - (Pointer.stepK (Pointer.Vec2.mk 0 0)
        (Pointer.Vec2.mk 1 (-1)) (2 / 25) 2).y) * ((Pointer.Vec2.mk 1 (-1)).y - (Pointer.Vec2.mk 0 0).y) :=
  C3_smoother_convergence (2 / 25) (by norm_num) (by norm_num)
    (Pointer.Vec2.mk 1 (-1)) (Pointer.Vec2.mk 0 0) 2

/-- C7 counterexample: a pointer event at clientX = 200 over a canvas
rectangle of width 100 starting at 0 stores target x-component 3, outside
[-1,1]: the handler performs no clamping. -/
theorem C7_counterexample :
    (Pointer.onPointer 200 50 (Pointer.Rect.mk 0 0 100 100)).x = 3 ∧
    ¬ (Pointer.onPointer 200 50 (Pointer.Rect.mk 0 0 100 100)).x ≤ 1 := by
  constructor <;> norm_num [Pointer.onPointer]

/-- C7 amended: the handler stores the affinely normalized raw sample with
no clamping, so the stored target lies in [-1,1]^2 exactly on those events
whose client coordinates fall inside the canvas rectangle; coordinates
outside it produce a target outside [-1,1]^2. -/
theorem C7_amended (clientX clientY : ℚ) (r : Pointer.Rect)
    (hw : 0 < r.width) (hh : 0 < r.height)
    (hx1 : r.left ≤ clientX) (hx2 : clientX ≤ r.left + r.width)
    (hy1 : r.top ≤ clientY) (hy2 : clientY ≤ r.top + r.height) :
    Pointer.onPointer clientX clientY r =
      Pointer.Vec2.mk ((clientX - r.left) / r.width * 2 - 1)
        (-((clientY - r.top) / r.height * 2 - 1)) ∧
    -1 ≤ (Pointer.onPointer clientX clientY r).x ∧
    (Pointer.onPointer clientX clientY r).x ≤ 1 ∧
    -1 ≤ (Pointer.onPointer clientX clientY r).y ∧
    (Pointer.onPointer clientX clientY r).y ≤ 1 := by
  have hx0 : 0 ≤ (clientX - r.left) / r.width := div_nonneg (by linarith) hw.le
  have hxu : (clientX - r.left) / r.width ≤ 1 := by
    rw [div_le_one hw]
    linarith
  have hy0 : 0 ≤ (clientY - r.top) / r.height := div_nonneg (by linarith) hh.le
  have hyu : (clientY - r.top) / r.height ≤ 1 := by
    rw [div_le_one hh]
    linarith
  refine ⟨rfl, ?_, ?_, ?_, ?_⟩ <;> simp only [Pointer.onPointer] <;> linarith

/-- C7 witness for the amended statement: an event in the middle of a
100-by-100 canvas produces the in-range target (0, 0). -/
theorem C7_witness :
    Pointer.onPointer 50 50 (Pointer.Rect.mk 0 0 100 100) =
      Pointer.Vec2.mk ((50 - (Pointer.Rect.mk 0 0 100 100).left) / (Pointer.Rect.mk 0 0 100 100).width * 2 - 1)
        (-((50 - (Pointer.Rect.mk 0 0 100 100).top) / (Pointer.Rect.mk 0 0 100 100).height * 2 - 1)) ∧
    -1 ≤ (Pointer.onPointer 50 50 (Pointer.Rect.mk 0 0 100 100)).x ∧
    (Pointer.onPointer 50 50 (Pointer.Rect.mk 0 0 100 100)).x ≤ 1 ∧
    -1 ≤ (Pointer.onPointer 50 50 (Pointer.Rect.mk 0 0 100 100)).y ∧
    (Pointer.onPointer 50 50 (Pointer.Rect.mk 0 0 100 100)).y ≤ 1 :=
  C7_amended 50 50 (Pointer.Rect.mk 0 0 100 100) (by norm_num) (by norm_num)
    (by norm_num) (by norm_num) (by norm_num) (by norm_num)

/-- C9 counterexample: with an active session (generation 1) and volume
0.7, setting the volume to 0.5 bumps the render-effect generation to 2:
because the effect's dependency list is `[volume]`, the Three.js render
session is torn down and rebuilt, contradicting the claim that the running
render session is not restarted. -/
theorem C9_counterexample :
    (AppM.handleVolume (1 / 2)
        (AppM.State.mk (7 / 10) (some (7 / 10)) true true 1)).sessionGen = 2 := by
  norm_num [AppM.handleVolume]

/-- C9 amended: `handleVolume` clamps the requested gain to [0,1] and
stores it, mirrors it onto the audio element when one exists, and leaves
the analyser (the audio session) and the play flag untouched; however the
render session is restarted (its effect generation increments) whenever
the clamped value differs from the current volume state, because the
render effect lists `volume` as a dependency. -/
theorem C9_amended (v : ℚ) (s : AppM.State) :
    0 ≤ (AppM.handleVolume v s).volume ∧
    (AppM.handleVolume v s).volume ≤ 1 ∧
    (AppM.handleVolume v s).audioVol
      = s.audioVol.map (fun _ => (AppM.handleVolume v s).volume) ∧
    (AppM.handleVolume v s).analyserPresent = s.analyserPresent ∧
    (AppM.handleVolume v s).isPlaying = s.isPlaying ∧
    ((AppM.handleVolume v s).volume = s.volume →
      (AppM.handleVolume v s).sessionGen = s.sessionGen) ∧
    ((AppM.handleVolume v s).volume ≠ s.volume →
      (AppM.handleVolume v s).sessionGen = s.sessionGen + 1) := by
  simp only [AppM.handleVolume]
  refine ⟨le_max_left 0 _, max_le (by norm_num) (min_le_left 1 v), by trivial, by trivial, by trivial, ?_, ?_⟩
  · intro h
    rw [if_pos h]
  · intro h
    rw [if_neg h]

/-- C9 witness for the amended statement, at the counterexample's input. -/
theorem C9_witness :
    0 ≤ (AppM.handleVolume (1 / 2) (AppM.State.mk (7 / 10) (some (7 / 10)) true true 1)).volume ∧
    (AppM.handleVolume (1 / 2) (AppM.State.mk (7 / 10) (some (7 / 10)) true true 1)).volume ≤ 1 ∧
    (AppM.handleVolume (1 / 2) (AppM.State.mk (7 / 10) (some (7 / 10)) true true 1)).audioVol
      = (AppM.State.mk (7 / 10) (some (7 / 10)) true true 1).audioVol.map
          (fun _ => (AppM.handleVolume (1 / 2) (AppM.State.mk (7 / 10) (some (7 / 10)) true true 1)).volume) ∧
    (AppM.handleVolume (1 / 2) (AppM.State.mk (7 / 10) (some (7 / 10)) true true 1)).analyserPresent
      = (AppM.State.mk (7 / 10) (some (7 / 10)) true true 1).analyserPresent ∧
    (AppM.handleVolume (1 / 2) (AppM.State.mk (7 / 10) (some (7 / 10)) true true 1)).isPlaying
      = (AppM.State.mk (7 / 10) (some (7 / 10)) true true 1).isPlaying ∧
    ((AppM.handleVolume (1 / 2) (AppM.State.mk (7 / 10) (some (7 / 10)) true true 1)).volume
        = (AppM.State.mk (7 / 10) (some (7 / 10)) true true 1).volume →
      (AppM.handleVolume (1 / 2) (AppM.State.mk (7 / 10) (some (7 / 10)) true true 1)).sessionGen
        = (AppM.State.mk (7 / 10) (some (7 / 10)) true true 1).sessionGen) ∧
    ((AppM.handleVolume (1 / 2) (AppM.State.mk (7 / 10) (some (7 / 10)) true true 1)).volume
        ≠ (AppM.State.mk (7 / 10) (some (7 / 10)) true true 1).volume →
      (AppM.handleVolume (1 / 2) (AppM.State.mk (7 / 10) (some (7 / 10)) true true 1)).sessionGen
        = (AppM.State.mk (7 / 10) (some (7 / 10)) true true 1).sessionGen + 1) :=
  C9_amended (1 / 2) (AppM.State.mk (7 / 10) (some (7 / 10)) true true 1)

/-- C6 (code-bug evidence): in part_000 teardown does cancel the pending
tick and freezes the loop (last two conjuncts), but in part_001 the mount
effect calls `animate()` twice (ticks = 2, pending ids 1 and 2), the
cleanup's `cancelAnimationFrame(raf)` runs with `raf` still 0 and cancels
nothing, and the host then fires pending callback 1: a tick executes after
teardown completed (ticks = 3), violating the claim. -/
theorem C6_teardown_tick :
    (Loop.teardown1 Loop.init1).ticks = 2 ∧
    (Loop.teardown1 Loop.init1).pending = [1, 2] ∧
    (Loop.fire1 (Loop.teardown1 Loop.init1) 1).ticks = 3 ∧
    (Loop.teardown0 Loop.init0).pending = [] ∧
    (Loop.teardown0 (Loop.teardown0 Loop.init0)) = Loop.teardown0 Loop.init0 ∧
    (∀ h : ℕ, Loop.fire0 (Loop.teardown0 Loop.init0) h = Loop.teardown0 Loop.init0) := by
  have h0 : Loop.teardown0 Loop.init0 = Loop.State0.mk [] 2 1 1 := by decide
  refine ⟨by decide, by decide, by decide, by decide, by decide, ?_⟩
  intro h
  rw [h0]
  simp [Loop.fire0]

namespace Shader

/-- GLSL fract agrees with Mathlib's fractional part. -/
lemma fractG_eq_fract (x : ℝ) : fractG x = Int.fract x := rfl

/-- The fractional part lies in [0,1). -/
lemma fractG_mem (x : ℝ) : 0 ≤ fractG x ∧ fractG x < 1 := by
  rw [fractG_eq_fract]
  exact ⟨Int.fract_nonneg x, Int.fract_lt_one x⟩

/-- The lattice hash lands in [0,1): it is a fractional part. -/
lemma hash_mem (p : ℝ × ℝ) : 0 ≤ hash p ∧ hash p < 1 :=
  fractG_mem _

/-- The Hermite cubic maps [0,1] into [0,1]. -/
lemma scurve_mem {t : ℝ} (h0 : 0 ≤ t) (h1 : t ≤ 1) : 0 ≤ scurve t ∧ scurve t ≤ 1 := by
  unfold scurve
  constructor
  · nlinarith [mul_nonneg (mul_nonneg h0 h0) (by linarith : (0:ℝ) ≤ 3 - 2 * t)]
  · nlinarith [mul_nonneg (sq_nonneg (1 - t)) (by linarith : (0:ℝ) ≤ 1 + 2 * t)]

/-- Clamping to [0,1] lands in [0,1]. -/
lemma clampG_mem (x : ℝ) : 0 ≤ clampG x 0 1 ∧ clampG x 0 1 ≤ 1 := by
  unfold clampG
  exact ⟨le_min (le_max_right x 0) zero_le_one, min_le_right _ 1⟩

/-- GLSL smoothstep always lands in [0,1]. -/
lemma smoothstepG_mem (e0 e1 x : ℝ) : 0 ≤ smoothstepG e0 e1 x ∧ smoothstepG e0 e1 x ≤ 1 := by
  unfold smoothstepG
  exact scurve_mem (clampG_mem _).1 (clampG_mem _).2

/-- The bilinear blend used by the value noise keeps its output inside the
unit interval when the four corners and both weights are in [0,1]. -/
lemma bilinear_mem {a b c d ux uy : ℝ}
    (ha : 0 ≤ a) (ha1 : a ≤ 1) (hb : 0 ≤ b) (hb1 : b ≤ 1)
    (hc : 0 ≤ c) (hc1 : c ≤ 1) (hd : 0 ≤ d) (hd1 : d ≤ 1)
    (hux : 0 ≤ ux) (hux1 : ux ≤ 1) (huy : 0 ≤ uy) (huy1 : uy ≤ 1) :
    0 ≤ mixG a b ux + (c - a) * uy * (1 - ux) + (d - b) * ux * uy ∧
    mixG a b ux + (c - a) * uy * (1 - ux) + (d - b) * ux * uy ≤ 1 := by
  unfold mixG
  constructor
  · nlinarith [mul_nonneg (mul_nonneg ha (by linarith : (0:ℝ) ≤ 1 - ux)) (by linarith : (0:ℝ) ≤ 1 - uy),
      mul_nonneg (mul_nonneg hb hux) (by linarith : (0:ℝ) ≤ 1 - uy),
      mul_nonneg (mul_nonneg hc (by linarith : (0:ℝ) ≤ 1 - ux)) huy,
      mul_nonneg (mul_nonneg hd hux) huy]
  · nlinarith [mul_nonneg (mul_nonneg (by linarith : (0:ℝ) ≤ 1 - a) (by linarith : (0:ℝ) ≤ 1 - ux)) (by linarith : (0:ℝ) ≤ 1 - uy),
      mul_nonneg (mul_nonneg (by linarith : (0:ℝ) ≤ 1 - b) hux) (by linarith : (0:ℝ) ≤ 1 - uy),
      mul_nonneg (mul_nonneg (by linarith : (0:ℝ) ≤ 1 - c) (by linarith : (0:ℝ) ≤ 1 - ux)) huy,
      mul_nonneg (mul_nonneg (by linarith : (0:ℝ) ≤ 1 - d) hux) huy]

/-- The value noise lands in [0,1] for every input point. -/
lemma noise_mem (p : ℝ × ℝ) : 0 ≤ noise p ∧ noise p ≤ 1 := by
  unfold noise
  have hux := scurve_mem (fractG_mem p.1).1 (fractG_mem p.1).2.le
  have huy := scurve_mem (fractG_mem p.2).1 (fractG_mem p.2).2.le
  exact bilinear_mem
    (hash_mem ((⌊p.1⌋ : ℝ), (⌊p.2⌋ : ℝ))).1 (hash_mem ((⌊p.1⌋ : ℝ), (⌊p.2⌋ : ℝ))).2.le
    (hash_mem ((⌊p.1⌋ : ℝ) + 1, (⌊p.2⌋ : ℝ))).1 (hash_mem ((⌊p.1⌋ : ℝ) + 1, (⌊p.2⌋ : ℝ))).2.le
    (hash_mem ((⌊p.1⌋ : ℝ), (⌊p.2⌋ : ℝ) + 1)).1 (hash_mem ((⌊p.1⌋ : ℝ), (⌊p.2⌋ : ℝ) + 1)).2.le
    (hash_mem ((⌊p.1⌋ : ℝ) + 1, (⌊p.2⌋ : ℝ) + 1)).1 (hash_mem ((⌊p.1⌋ : ℝ) + 1, (⌊p.2⌋ : ℝ) + 1)).2.le
    hux.1 hux.2 huy.1 huy.2

/-- GLSL mix with ordered endpoints stays between them. -/
lemma mixG_mem {lo hi y : ℝ} (h : lo ≤ hi) (hy : 0 ≤ y) (hy1 : y ≤ 1) :
    lo ≤ mixG lo hi y ∧ mixG lo hi y ≤ hi := by
  unfold mixG
  constructor
  · nlinarith [mul_nonneg (sub_nonneg.mpr h) hy]
  · nlinarith [mul_nonneg (sub_nonneg.mpr h) (by linarith : (0:ℝ) ≤ 1 - y)]

/-- The sinusoidal tint is bounded by `0.02 * pulse` in magnitude. -/
lemma tint_bound {vUv : ℝ × ℝ} {time a : ℝ} (h0 : 0 ≤ a) :
    -(0.004 + 0.024 * a) ≤ tint vUv time a ∧ tint vUv time a ≤ 0.004 + 0.024 * a := by
  unfold tint pulse
  have hs1 : Real.sin (time * 0.2 + vUv.1 * 6) ≤ 1 := Real.sin_le_one _
  have hs2 : -1 ≤ Real.sin (time * 0.2 + vUv.1 * 6) := Real.neg_one_le_sin _
  have hp : (0 : ℝ) ≤ 0.2 + a * 1.2 := by linarith
  constructor
  · nlinarith [mul_nonneg (by linarith : (0:ℝ) ≤ Real.sin (time * 0.2 + vUv.1 * 6) + 1) hp]
  · nlinarith [mul_nonneg (by linarith : (0:ℝ) ≤ 1 - Real.sin (time * 0.2 + vUv.1 * 6)) hp]

/-- Glow bounds: nonnegative, at most 0.4, and at least `0.4 * audio^2`
(since `audio^1.5 ≥ audio^2` on [0,1]). -/
lemma glow_mem {a : ℝ} (h0 : 0 ≤ a) (h1 : a ≤ 1) :
    0 ≤ glow a ∧ glow a ≤ 0.4 ∧ a ^ 2 * 0.4 ≤ glow a := by
  unfold glow
  have hnn : 0 ≤ a ^ (1.5 : ℝ) := Real.rpow_nonneg h0 _
  have hle : a ^ (1.5 : ℝ) ≤ 1 := Real.rpow_le_one h0 h1 (by norm_num)
  have hsq : a ^ 2 ≤ a ^ (1.5 : ℝ) := by
    rcases eq_or_lt_of_le h0 with h | h
    · rw [← h, Real.zero_rpow (by norm_num)]
      norm_num
    · have h2 := Real.rpow_le_rpow_of_exponent_ge h h1 (by norm_num : (1.5:ℝ) ≤ (2:ℝ))
      rwa [Real.rpow_two] at h2
  exact ⟨by linarith, by linarith, by nlinarith⟩

end Shader

/-- C10: for every input point the lattice hash lands in [0,1), the
Hermite interpolation weights `u = f * f * (3 - 2 * f)` of the fractional
offsets lie in [0,1], and the bilinearly interpolated value noise lands in
[0,1]. -/
theorem C10_noise_range (p : ℝ × ℝ) :
    (0 ≤ Shader.hash p ∧ Shader.hash p < 1) ∧
    (0 ≤ Shader.scurve (Shader.fractG p.1) ∧ Shader.scurve (Shader.fractG p.1) ≤ 1) ∧
    (0 ≤ Shader.scurve (Shader.fractG p.2) ∧ Shader.scurve (Shader.fractG p.2) ≤ 1) ∧
    (0 ≤ Shader.noise p ∧ Shader.noise p ≤ 1) :=
  ⟨Shader.hash_mem p,
   Shader.scurve_mem (Shader.fractG_mem p.1).1 (Shader.fractG_mem p.1).2.le,
   Shader.scurve_mem (Shader.fractG_mem p.2).1 (Shader.fractG_mem p.2).2.le,
   Shader.noise_mem p⟩

/-- C4: for uv in the unit square, any time, any pointer position, and any
audio intensity in [0,1], the displacement height is at most
`baseAmp + ampGain + rippleMax = (0.2 + 0.9) + 0.5 * (0.25 + 0.5) = 1.475`;
the value-noise factor lies in [0,1] by `Shader.noise_mem`, so no valid
input produces an unbounded height. -/
theorem C4_height_bound (uv : ℝ × ℝ) (time : ℝ) (mouse : ℝ × ℝ) (audio : ℝ)
    (huv1 : 0 ≤ uv.1) (huv1' : uv.1 ≤ 1) (huv2 : 0 ≤ uv.2) (huv2' : uv.2 ≤ 1)
    (ha : 0 ≤ audio) (ha' : audio ≤ 1) :
    Shader.vertexHeight uv time mouse audio ≤ 1.475 := by
  unfold Shader.vertexHeight
  have hn := Shader.noise_mem
    (uv.1 * 6 + Shader.noise (uv.1 * 3 + time * 0.8, uv.2 * 3 + time * 0.8) * 0.3 + time * 0.8,
     uv.2 * 6 + Shader.noise (uv.1 * 3 - time * 0.8, uv.2 * 3 - time * 0.8) * 0.3 + time * 0.8)
  have hs := Shader.smoothstepG_mem 0.7 0
    (Real.sqrt ((uv.1 - (mouse.1 * 0.5 + 0.5)) ^ 2 + (uv.2 - (mouse.2 * 0.5 + 0.5)) ^ 2))
  have hamp0 : (0 : ℝ) ≤ 0.2 + audio * 0.9 := by linarith
  have hamp1 : 0.2 + audio * 0.9 ≤ 1.1 := by linarith
  have hrip : (0 : ℝ) ≤ 0.25 + audio * 0.5 := by linarith
  have hrip1 : 0.25 + audio * 0.5 ≤ 0.75 := by linarith
  nlinarith [mul_le_mul hn.2 hamp1 hamp0 (by norm_num : (0:ℝ) ≤ 1),
    mul_le_mul hs.2 hrip1 hrip (by norm_num : (0:ℝ) ≤ 1),
    mul_nonneg hs.1 hrip, mul_nonneg hn.1 hamp0]

/-- C4 witness: the bound holds at the concrete valid input
uv = (0,0), time = 0, pointer = (0,0), audio = 0. -/
theorem C4_witness :
    Shader.vertexHeight (0, 0) 0 (0, 0) 0 ≤ 1.475 :=
  C4_height_bound (0, 0) 0 (0, 0) 0 (by norm_num) (by norm_num) (by norm_num)
    (by norm_num) (by norm_num) (by norm_num)

namespace Shader

/-- The vignette factor lies in [0,1]: it is a smoothstep value. -/
lemma vign_mem (vUv : ℝ × ℝ) : 0 ≤ vign vUv ∧ vign vUv ≤ 1 :=
  smoothstepG_mem _ _ _

/-- Product of two unit-interval values stays in the unit interval. -/
lemma unit_mul {x v : ℝ} (hx0 : 0 ≤ x) (hx1 : x ≤ 1) (hv0 : 0 ≤ v) (hv1 : v ≤ 1) :
    0 ≤ x * v ∧ x * v ≤ 1 :=
  ⟨mul_nonneg hx0 hv0, by nlinarith⟩

end Shader

/-- C8: over the valid input domain (uv in the unit square, any time,
audio intensity in [0,1]) every channel of the fragment color lies in the
display range [0,1].  The shader itself contains no explicit clamp
instruction; its arithmetic already keeps each channel inside [0,1], so
the fixed-function clamp applied to `gl_FragColor` on output is a no-op. -/
theorem C8_color_in_range (vUv : ℝ × ℝ) (time audio : ℝ)
    (hu1 : 0 ≤ vUv.1) (hu1' : vUv.1 ≤ 1) (hu2 : 0 ≤ vUv.2) (hu2' : vUv.2 ≤ 1)
    (ha : 0 ≤ audio) (ha' : audio ≤ 1) :
    (0 ≤ (Shader.fragColor vUv time audio).1 ∧ (Shader.fragColor vUv time audio).1 ≤ 1) ∧
    (0 ≤ (Shader.fragColor vUv time audio).2.1 ∧ (Shader.fragColor vUv time audio).2.1 ≤ 1) ∧
    (0 ≤ (Shader.fragColor vUv time audio).2.2 ∧ (Shader.fragColor vUv time audio).2.2 ≤ 1) := by
  obtain ⟨ht1, ht2⟩ := @Shader.tint_bound vUv time audio ha
  obtain ⟨hg0, hg1, hg2⟩ := Shader.glow_mem ha ha'
  obtain ⟨hv0, hv1⟩ := Shader.vign_mem vUv
  obtain ⟨hr0, hr1⟩ := Shader.mixG_mem (by norm_num : (0.02:ℝ) ≤ 0.18) hu2 hu2'
  obtain ⟨hgr0, hgr1⟩ := Shader.mixG_mem (by norm_num : (0.03:ℝ) ≤ 0.15) hu2 hu2'
  obtain ⟨hb0, hb1⟩ := Shader.mixG_mem (by norm_num : (0.06:ℝ) ≤ 0.4) hu2 hu2'
  unfold Shader.fragColor
  refine ⟨Shader.unit_mul ?_ ?_ hv0 hv1, Shader.unit_mul ?_ ?_ hv0 hv1,
    Shader.unit_mul ?_ ?_ hv0 hv1⟩
  · nlinarith [sq_nonneg (audio - 0.05)]
  · nlinarith
  · nlinarith [sq_nonneg (audio - 0.075)]
  · nlinarith
  · nlinarith
  · nlinarith

/-- C8 witness: at the concrete valid input uv = (1/2, 1/2), time = 0,
audio = 0 every channel is within [0,1]. -/
theorem C8_witness :
    (0 ≤ (Shader.fragColor (1/2, 1/2) 0 0).1 ∧ (Shader.fragColor (1/2, 1/2) 0 0).1 ≤ 1) ∧
    (0 ≤ (Shader.fragColor (1/2, 1/2) 0 0).2.1 ∧ (Shader.fragColor (1/2, 1/2) 0 0).2.1 ≤ 1) ∧
    (0 ≤ (Shader.fragColor (1/2, 1/2) 0 0).2.2 ∧ (Shader.fragColor (1/2, 1/2) 0 0).2.2 ≤ 1) :=
  C8_color_in_range (1/2, 1/2) 0 0 (by norm_num) (by norm_num) (by norm_num)
    (by norm_num) (by norm_num) (by norm_num)

/-- C5: the noise/displacement pipeline is deterministic: evaluated twice
on inputs that are equal componentwise it yields the same height and the
same color; the lattice hash is a pure function of its lattice coordinate
(no mutable state exists: in this shallow embedding every shader function
is a plain mathematical function of its listed arguments alone, and this
theorem records the resulting two-run congruence). -/
theorem C5_deterministic (uv uv' : ℝ × ℝ) (t t' : ℝ) (m m' : ℝ × ℝ) (a a' : ℝ)
    (h1 : uv = uv') (h2 : t = t') (h3 : m = m') (h4 : a = a') :
    Shader.vertexHeight uv t m a = Shader.vertexHeight uv' t' m' a' ∧
    Shader.fragColor uv t a = Shader.fragColor uv' t' a' ∧
    (∀ p q : ℝ × ℝ, p = q → Shader.hash p = Shader.hash q) := by
  subst h1 h2 h3 h4
  exact ⟨rfl, rfl, fun p q h => by rw [h]⟩

/-- C5 witness: two evaluations at the same concrete input agree. -/
theorem C5_witness :
    Shader.vertexHeight (0, 0) 0 (0, 0) 0 = Shader.vertexHeight (0, 0) 0 (0, 0) 0 ∧
    Shader.fragColor (0, 0) 0 0 = Shader.fragColor (0, 0) 0 0 ∧
    (∀ p q : ℝ × ℝ, p = q → Shader.hash p = Shader.hash q) :=
  C5_deterministic (0, 0) (0, 0) 0 0 (0, 0) (0, 0) 0 0 rfl rfl rfl rfl
